import Mathlib

/-!
Verification development for the Zenodo verification-tools crawler pipeline
(crawler_module.py, parser_module.py, storage_module.py, main.py).

The Python source is shallowly embedded: dictionaries become structures with
Option-valued fields for present-or-null values, the HTTP search API becomes an
oracle function, the sqlite table becomes a list of rows, and the few Python
string primitives the code relies on (substring test `in`, `lower`, `strip`,
`re.sub` tag stripping, slicing) are modelled character-exactly below.
-/

/-- Python list-of-chars prefix test: does the haystack start with the needle? -/
def startsAt : List Char → List Char → Bool
  | [], _ => true
  | _ :: _, [] => false
  | a :: as, b :: bs => a == b && startsAt as bs

/-- Substring occurrence on character lists, as Python's `needle in haystack`. -/
def hasSub (needle : List Char) : List Char → Bool
  | [] => needle.isEmpty
  | b :: bs => startsAt needle (b :: bs) || hasSub needle bs

/-- Python's `needle in haystack` on strings. -/
def pyIn (needle haystack : String) : Bool :=
  hasSub needle.toList haystack.toList

/-- Python's `str.lower` (ASCII case folding, which covers all text in scope). -/
def pyLower (s : String) : String :=
  String.mk (s.toList.map Char.toLower)

/-- Whitespace characters removed by Python's `str.strip()` (ASCII range). -/
def pyIsSpace (c : Char) : Bool :=
  c == ' ' || c == '\t' || c == '\n' || c == '\r' || c == '\x0b' || c == '\x0c'

/-- Python's `str.strip()`: drop leading and trailing whitespace. -/
def pyStrip (s : String) : String :=
  String.mk (((s.toList.dropWhile pyIsSpace).reverse.dropWhile pyIsSpace).reverse)

/-- Python slice `s[:n]`. -/
def pyTake (n : Nat) (s : String) : String :=
  String.mk (s.toList.take n)

/-- Scanner for the closing bracket of one `<[^<]+?>` match: after the first
consumed character, keep consuming non-bracket characters until a closing
bracket ends the match; an opening bracket aborts it.  Returns the characters
after the match when the lazy regex match succeeds. -/
def scanClose : List Char → Option (List Char)
  | [] => none
  | d :: ds => if d == '>' then some ds else if d == '<' then none else scanClose ds

/-- One pass of `re.sub(r'<[^<]+?>', '', s)` over the character list, with fuel;
fuel at least the list length makes it total (each step consumes at least one
character).  A tag match is an opening bracket, at least one following
character none of which (after the first) was already a closing bracket and
none of which is an opening bracket, then the first closing bracket. -/
def stripHtmlFuel : Nat → List Char → List Char
  | 0, l => l
  | _ + 1, [] => []
  | fuel + 1, a :: rest =>
    if a == '<' then
      match rest with
      | [] => ['<']
      | c :: cs =>
        if c == '<' then '<' :: stripHtmlFuel fuel rest
        else
          match scanClose cs with
          | some rem => stripHtmlFuel fuel rem
          | none => '<' :: stripHtmlFuel fuel rest
    else a :: stripHtmlFuel fuel rest

/-- Python's `re.sub(r'<[^<]+?>', '', s)` as used by the description cleaner. -/
def stripHtml (s : String) : String :=
  String.mk (stripHtmlFuel s.toList.length s.toList)

/-- Python `str(x)` applied to a present-or-null string value: `str(None)`
is the literal text "None". -/
def pyStrOfOpt : Option String → String
  | none => "None"
  | some s => s

/-- Metadata bag of a raw Zenodo hit (`record['metadata']`); absent keys are
`none`/`[]`.  The `license` entry is an object whose `id` sub-key may itself be
absent, hence the nested Option. -/
structure ZenodoMetadata where
  title : Option String := none
  description : Option String := none
  creators : List String := []
  keywords : List String := []
  resourceType : Option String := none
  accessRight : Option String := none
  publicationDate : Option String := none
  version : Option String := none
  license : Option (Option String) := none
deriving DecidableEq

/-- Raw hit returned by the Zenodo search API (`ZenodoCrawler` input).
Creators are modelled by their name strings (a creator entry without a usable
name is the empty string). -/
structure ZenodoHit where
  id : Option String := none
  doi : Option String := none
  linksSelf : Option String := none
  metadata : ZenodoMetadata := {}
deriving DecidableEq

/-- Flat record produced by `ZenodoCrawler.extract_relevant_data`; `run` later
adds the `search_query` / `search_category` keys. -/
structure ProcessedRecord where
  id : Option String
  title : Option String
  description : Option String
  creators : List String
  keywords : List String
  doi : Option String
  linksSelf : Option String
  resourceType : Option String
  accessRight : Option String
  publicationDate : Option String
  version : Option String
  license : Option String
  crawledAt : String
  searchQuery : Option String := none
  searchCategory : Option String := none
deriving DecidableEq

/-- Embedding of `ZenodoCrawler.extract_relevant_data`; `now` stands for
`time.strftime('%Y-%m-%d %H:%M:%S')`.  The license id is extracted from the
nested license object when that object is present. -/
def extractRelevantData (now : String) (record : ZenodoHit) : ProcessedRecord :=
  let md := record.metadata
  { id := record.id
    title := md.title
    description := md.description
    creators := md.creators
    keywords := md.keywords
    doi := record.doi
    linksSelf := record.linksSelf
    resourceType := md.resourceType
    accessRight := md.accessRight
    publicationDate := md.publicationDate
    version := md.version
    license := match md.license with
               | some oid => oid
               | none => none
    crawledAt := now }

/-- Strong inclusion keywords of `ZenodoCrawler.is_relevant_tool`. -/
def strongKeywords : List String :=
  ["verifier", "prover", "model checker", "theorem prover",
   "static analyzer", "formal verification", "program analysis",
   "sat solver", "smt solver", "qbf solver", "termination prover",
   "neural network verification", "program verification",
   "software verification", "bounded model checking"]

/-- Weak inclusion keywords of `ZenodoCrawler.is_relevant_tool` (note the
entry "formal"). -/
def weakKeywords : List String :=
  ["verification", "correctness", "termination", "complexity",
   "formal", "solver", "checker", "analysis", "proof",
   "specification", "invariant", "assertion", "contract"]

/-- Exclusion keywords of `ZenodoCrawler.is_relevant_tool`. -/
def exclusionKeywords : List String :=
  ["biology", "medical", "clinical", "patient", "disease",
   "species", "ecological", "geographic", "survey", "questionnaire",
   "interview", "photograph", "museum", "archaeological"]

/-- Text over which `is_relevant_tool` matches: lowercased join of
`str(title)`, `str(description)` and the space-joined keywords. -/
def relevantText (r : ProcessedRecord) : String :=
  pyLower (pyStrOfOpt r.title ++ " " ++ pyStrOfOpt r.description ++ " " ++
           String.intercalate " " r.keywords)

/-- Embedding of `ZenodoCrawler.is_relevant_tool`: exclusion beats strong
match beats a count of at least two weak keywords. -/
def isRelevantTool (r : ProcessedRecord) : Bool :=
  let text := relevantText r
  if exclusionKeywords.any (fun kw => pyIn kw text) then false
  else if strongKeywords.any (fun kw => pyIn kw text) then true
  else decide (weakKeywords.countP (fun kw => pyIn kw text) ≥ 2)

/-- Canonical tool record produced by `ToolDataParser._standardize_tool_data`
(the nested `metadata` dict is flattened into the `meta`-prefixed fields). -/
structure CanonicalTool where
  name : String
  description : String
  category : String
  source : String
  source_id : Option String
  doi : Option String
  authors : List String
  keywords : List String
  url : Option String
  license : Option String
  metaCrawledAt : String
  metaResourceType : Option String
  metaVersion : String
deriving DecidableEq

/-- Text over which `ToolDataParser._categorize_tool` matches. -/
def categText (title description : String) (keywords : List String) : String :=
  pyLower (title ++ " " ++ description ++ " " ++ String.intercalate " " keywords)

/-- Embedding of `ToolDataParser._categorize_tool`: ordered first-match rules. -/
def categorizeTool (title description : String) (keywords : List String) : String :=
  let text := categText title description keywords
  if pyIn "neural" text || pyIn "deep learning" text then "neural_network_verification"
  else if pyIn "termination" text then "termination"
  else if pyIn "complexity" text || pyIn "bounds" text then "complexity_bounds"
  else if pyIn "qbf" text || pyIn "boolean" text then "qbf_solver"
  else if pyIn "correctness" text || pyIn "verification" text then "functional_correctness"
  else "other"

/-- Embedding of `ToolDataParser._clean_description`: empty or null
descriptions give the empty string; otherwise strip HTML tags, truncate to
497 characters plus "..." when longer than 500, and finally `strip()`. -/
def cleanDescription (desc : Option String) : String :=
  match desc with
  | none => ""
  | some s =>
    if s = "" then ""
    else
      let cleaned := stripHtml s
      let truncated := if cleaned.length > 500 then pyTake 497 cleaned ++ "..." else cleaned
      pyStrip truncated

/-- Embedding of `ToolDataParser._extract_authors`: keep the non-empty names. -/
def extractAuthors (creators : List String) : List String :=
  creators.filter (fun name => name ≠ "")

/-- Embedding of `ToolDataParser._standardize_tool_data` on a record shaped
like `extract_relevant_data` output.  A null title or null description makes
`_categorize_tool` raise a TypeError (string concatenation with None), which
`parse_zenodo_data` catches: that is the `none` result.  Note the source fills
the canonical `license` from the record's `access_right` value. -/
def standardizeToolData (item : ProcessedRecord) : Option CanonicalTool :=
  match item.title, item.description with
  | some t, some d =>
    some { name := pyStrip t
           description := cleanDescription (some d)
           category := categorizeTool t d item.keywords
           source := "zenodo"
           source_id := item.id
           doi := item.doi
           authors := extractAuthors item.creators
           keywords := item.keywords
           url := item.linksSelf
           license := item.accessRight
           metaCrawledAt := item.crawledAt
           metaResourceType := item.resourceType
           metaVersion := "beta-extract" }
  | _, _ => none

/-- Embedding of `ToolDataParser._validate_tool_data`: the required string
fields must be truthy and the name at least 3 characters. -/
def validateToolData (tool : CanonicalTool) : Bool :=
  if tool.name = "" then false
  else if tool.category = "" then false
  else if tool.source = "" then false
  else if tool.name.length < 3 then false
  else true

/-- Embedding of `ToolDataParser.parse_zenodo_data`: standardize each item,
keep it when validation passes, drop it otherwise (parse exceptions land in
the validation-error list and also drop the item). -/
def parseZenodoData (raw : List ProcessedRecord) : List CanonicalTool :=
  raw.filterMap (fun item =>
    match standardizeToolData item with
    | some tool => if validateToolData tool then some tool else none
    | none => none)

/-- Observation counter for the `parse_zenodo_data` warning branch: items that
standardized but failed validation. -/
def countInvalid (raw : List ProcessedRecord) : Nat :=
  (raw.filter (fun item =>
    match standardizeToolData item with
    | some tool => !validateToolData tool
    | none => false)).length

/-- Observation counter for the `parse_zenodo_data` exception branch. -/
def countParseErrors (raw : List ProcessedRecord) : Nat :=
  (raw.filter (fun item => (standardizeToolData item).isNone)).length

/-- Row of the sqlite `tools` table as far as the embedded code reads or
writes it (the surrogate key, JSON blob and timestamp never influence control
flow and are omitted). -/
structure ToolRow where
  name : String
  category : String
  description : String
  source : String
  source_id : Option String
  doi : Option String
  url : Option String
deriving DecidableEq

/-- SQL equality used by `SELECT id FROM tools WHERE source_id = ?`: a NULL on
either side compares unknown, never true. -/
def sqlEq : Option String → Option String → Bool
  | some a, some b => a == b
  | _, _ => false

/-- Row built by the INSERT statement of `DataStorage.save_to_database`. -/
def mkToolRow (item : CanonicalTool) : ToolRow :=
  { name := item.name
    category := item.category
    description := item.description
    source := item.source
    source_id := item.source_id
    doi := item.doi
    url := item.url }

/-- Embedding of the `DataStorage.save_to_database` loop.  `committed` is the
table as previous calls committed it; `pending` are this call's uncommitted
inserts (the SELECT sees both, since the lookup runs on the same connection
inside the open transaction).  `err k` tells whether the k-th INSERT of this
call raises `sqlite3.Error`; on an error the transaction is rolled back, so
`pending` is discarded, and the Bool in the result records that the error
branch ran.  Without an error the final `conn.commit()` publishes `pending`. -/
def saveLoop (err : Nat → Bool) :
    List CanonicalTool → List ToolRow → List ToolRow → Nat → Nat × List ToolRow × Bool
  | [], committed, pending, inserted => (inserted, committed ++ pending, false)
  | item :: rest, committed, pending, inserted =>
    if (committed ++ pending).any (fun row => sqlEq row.source_id item.source_id) then
      saveLoop err rest committed pending inserted
    else if err inserted then
      (inserted, committed, true)
    else
      saveLoop err rest committed (pending ++ [mkToolRow item]) (inserted + 1)

/-- Embedding of `DataStorage.save_to_database` with a fault model for the
INSERT statements; returns the inserted-count, the table after the call, and
whether the error handler ran. -/
def saveToDatabaseF (err : Nat → Bool) (db : List ToolRow) (data : List CanonicalTool) :
    Nat × List ToolRow × Bool :=
  saveLoop err data db [] 0

/-- Embedding of `DataStorage.save_to_database` on a fault-free store. -/
def saveToDatabase (db : List ToolRow) (data : List CanonicalTool) : Nat × List ToolRow :=
  ((saveToDatabaseF (fun _ => false) db data).1, (saveToDatabaseF (fun _ => false) db data).2.1)

/-- The Zenodo search API as an oracle: query string, page size, page number
to the returned hit list.  Transport failures are part of the oracle (the
source catches them and returns an empty list). -/
abbrev SearchOracle := String → Nat → Nat → List ZenodoHit

/-- Query decoration applied by `search_verification_tools` when
`software_only` is true (the default used by every caller). -/
def softwareQuery (query : String) : String :=
  "(" ++ query ++ ") AND (resource_type.type:software OR keywords:tool OR keywords:software OR keywords:framework)"

/-- Embedding of `ZenodoCrawler.search_verification_tools` with the default
`software_only=True`. -/
def searchVerificationTools (oracle : SearchOracle) (query : String) (size page : Nat) :
    List ZenodoHit :=
  oracle (softwareQuery query) size page

/-- The static `ZenodoCrawler.SEARCH_QUERIES` mapping, in insertion order. -/
def SEARCH_QUERIES : List (String × List String) :=
  [("functional_correctness",
    ["program verification", "formal verification software", "model checker", "theorem prover"]),
   ("termination", ["termination analysis", "termination prover"]),
   ("complexity_bounds", ["complexity analysis tool", "resource analysis"]),
   ("neural_network_verification", ["neural network verification", "DNN verification"]),
   ("qbf_solver", ["QBF solver", "quantified boolean formula"])]

/-- The fixed query list of `ZenodoCrawler.run_quick`. -/
def quickQueries : List String :=
  ["program verification tool", "termination prover", "complexity analysis tool",
   "neural network verification", "QBF solver"]

/-- The string `str(record.get('id', ''))` used as deduplication key. -/
def hitId (h : ZenodoHit) : String :=
  match h.id with
  | none => ""
  | some s => s

/-- Deduplication key of an already-processed record, for stating theorems
about emitted output (`extract_relevant_data` copies the raw id through). -/
def pid (r : ProcessedRecord) : String :=
  match r.id with
  | none => ""
  | some s => s

/-- Record as `run` emits it: extracted fields plus the search query and
category that first matched it. -/
def mkProcessed (now cat query : String) (h : ZenodoHit) : ProcessedRecord :=
  { extractRelevantData now h with searchQuery := some query, searchCategory := some cat }

/-- Body of the per-record loop in `ZenodoCrawler.run`: skip empty or already
seen ids, otherwise mark seen and append when relevant.  The state is the
seen-id set (as a list) and the accumulated results. -/
def crawlStep (now cat query : String) (st : List String × List ProcessedRecord)
    (h : ZenodoHit) : List String × List ProcessedRecord :=
  if hitId h = "" then st
  else if st.1.contains (hitId h) then st
  else if isRelevantTool (mkProcessed now cat query h) then
    (hitId h :: st.1, st.2 ++ [mkProcessed now cat query h])
  else (hitId h :: st.1, st.2)

/-- Category list actually iterated by `run`: the argument when given, else
all keys of `SEARCH_QUERIES`. -/
def resolveCats (catsOpt : Option (List String)) : List String :=
  match catsOpt with
  | none => SEARCH_QUERIES.map Prod.fst
  | some cs => cs

/-- Embedding of `ZenodoCrawler.run` starting from seen-id state `seen0`:
nested loops over categories (unknown ones skipped), their queries (searched
with size 25), and the returned records.  Returns the final seen-id state and
the emitted records. -/
def runCrawler (oracle : SearchOracle) (now : String) (catsOpt : Option (List String))
    (seen0 : List String) : List String × List ProcessedRecord :=
  (resolveCats catsOpt).foldl (fun st cat =>
    match List.lookup cat SEARCH_QUERIES with
    | none => st
    | some qs => qs.foldl (fun st q =>
        (searchVerificationTools oracle q 25 1).foldl (crawlStep now cat q) st) st)
    (seen0, [])

/-- Body of the per-record loop in `ZenodoCrawler.run_quick`: same admission
control, but every admitted record is appended, with no relevance filter and
no query/category attribution. -/
def quickStep (now : String) (st : List String × List ProcessedRecord)
    (h : ZenodoHit) : List String × List ProcessedRecord :=
  if hitId h = "" then st
  else if st.1.contains (hitId h) then st
  else (hitId h :: st.1, st.2 ++ [extractRelevantData now h])

/-- Embedding of `ZenodoCrawler.run_quick` starting from seen-id state
`seen0` (searches use size 10). -/
def runQuick (oracle : SearchOracle) (now : String) (seen0 : List String) :
    List String × List ProcessedRecord :=
  quickQueries.foldl (fun st q =>
    (searchVerificationTools oracle q 10 1).foldl (quickStep now) st) (seen0, [])

/-- Loop of `ZenodoCrawler.search_with_pagination` with page size 50, also
recording which pages are requested.  Fuel bounds the iteration count; any
fuel of at least `maxResults + 1` is enough, since every continuing iteration
appends a full page of 50 results while the guard requires the accumulated
count to stay below `maxResults`. -/
def searchPagesFuel (oracle : SearchOracle) (query : String) (maxResults : Nat) :
    Nat → Nat → List ZenodoHit → List Nat → List ZenodoHit × List Nat
  | 0, _, acc, reqs => (acc, reqs)
  | fuel + 1, page, acc, reqs =>
    if acc.length < maxResults then
      let results := searchVerificationTools oracle query 50 page
      if results.length < 50 then (acc ++ results, reqs ++ [page])
      else searchPagesFuel oracle query maxResults fuel (page + 1) (acc ++ results) (reqs ++ [page])
    else (acc, reqs)

/-- Embedding of `ZenodoCrawler.search_with_pagination` (default
`max_results=100` is irrelevant here): accumulated results truncated to
`maxResults`, plus the list of requested page numbers. -/
def searchWithPagination (oracle : SearchOracle) (query : String) (maxResults : Nat) :
    List ZenodoHit × List Nat :=
  let r := searchPagesFuel oracle query maxResults (maxResults + 1) 1 [] []
  (r.1.take maxResults, r.2)

/-- One (category, query, hit) unit of work of `run`, used to linearize its
three nested loops for reasoning. -/
abbrev Triple := String × String × ZenodoHit

/-- Deduplication key of a work unit. -/
def tripleId (t : Triple) : String :=
  hitId t.2.2

/-- Uncurried `crawlStep` over a work unit. -/
def crawlStepT (now : String) (st : List String × List ProcessedRecord) (t : Triple) :
    List String × List ProcessedRecord :=
  crawlStep now t.1 t.2.1 st t.2.2

/-- Work units contributed by one query of one category. -/
def queryTriples (oracle : SearchOracle) (cat q : String) : List Triple :=
  (searchVerificationTools oracle q 25 1).map (fun h => (cat, q, h))

/-- Work units contributed by one category of `run` (none when the category
is unknown). -/
def catTriples (oracle : SearchOracle) (cat : String) : List Triple :=
  match List.lookup cat SEARCH_QUERIES with
  | none => []
  | some qs => (qs.map (queryTriples oracle cat)).flatten

/-- All work units of one `run` invocation, in execution order. -/
def runTriples (oracle : SearchOracle) (cats : List String) : List Triple :=
  (cats.map (catTriples oracle)).flatten

/-- Observation counter for `run`: records admitted by the deduplicator (id
nonempty and unseen) but rejected by the relevance filter, i.e. the records
`run` silently drops between admission and emission. -/
def relevanceDrops (now : String) : List Triple → List String → Nat
  | [], _ => 0
  | t :: ts, seen =>
    let rid := tripleId t
    if rid = "" then relevanceDrops now ts seen
    else if seen.contains rid then relevanceDrops now ts seen
    else if isRelevantTool (mkProcessed now t.1 t.2.1 t.2.2) then relevanceDrops now ts (rid :: seen)
    else 1 + relevanceDrops now ts (rid :: seen)

/-- First scenario record of the end-to-end test: a relevant, valid tool. -/
def hitCbmc : ZenodoHit :=
  { id := some "1001"
    metadata := { title := some "CBMC Bounded Model Checker"
                  description := some "A bounded model checker for software verification of C programs"
                  keywords := ["model checking", "software"]
                  accessRight := some "open" } }

/-- Second scenario record: contains "verification" but also the exclusion
keywords "patient" and "survey". -/
def hitPatient : ZenodoHit :=
  { id := some "1002"
    metadata := { title := some "Patient Survey Tool"
                  description := some "A verification questionnaire tool for patient data" } }

/-- Third scenario record: relevant (strong keyword in the description) but
with an empty title, so validation rejects the canonical name. -/
def hitEmptyTitle : ZenodoHit :=
  { id := some "1003"
    metadata := { title := some ""
                  description := some "An automated theorem prover for program verification" } }

/-- Search oracle of the end-to-end scenario: the first query of the
`functional_correctness` category returns the three raw records, every other
search is empty. -/
def oracleC7 : SearchOracle := fun q _ _ =>
  if q = softwareQuery "program verification" then [hitCbmc, hitPatient, hitEmptyTitle] else []

/-- One public crawl entry point of a `ZenodoCrawler` instance. -/
inductive CrawlCall where
  | fullRun (catsOpt : Option (List String)) : CrawlCall
  | quickRun : CrawlCall

/-- Dispatch one crawl invocation on the current seen-id state of the
instance, returning the new state and the returned records. -/
def applyCall (oracle : SearchOracle) (now : String) (seen : List String) :
    CrawlCall → List String × List ProcessedRecord
  | CrawlCall.fullRun catsOpt => runCrawler oracle now catsOpt seen
  | CrawlCall.quickRun => runQuick oracle now seen

/-- Result lists of a sequence of crawl invocations on one crawler instance;
the seen-id state threads through and is never reset, exactly as the
`self.seen_ids` attribute in the source. -/
def crawlOutputs (oracle : SearchOracle) (now : String) :
    List String → List CrawlCall → List (List ProcessedRecord)
  | _, [] => []
  | seen, c :: cs =>
    let r := applyCall oracle now seen c
    r.2 :: crawlOutputs oracle now r.1 cs

/-- Weak keyword list exactly as the specification sentence for claim C3
enumerates it: twelve entries, without "formal". -/
def specWeakKeywordsC3 : List String :=
  ["verification", "correctness", "termination", "complexity",
   "solver", "checker", "analysis", "proof",
   "specification", "invariant", "assertion", "contract"]

/-- Relevance as claim C3 states it (precedence chain with the twelve-entry
weak list of the spec), to be compared with `isRelevantTool`. -/
def isRelevantClaimC3 (r : ProcessedRecord) : Bool :=
  let text := relevantText r
  if exclusionKeywords.any (fun kw => pyIn kw text) then false
  else if strongKeywords.any (fun kw => pyIn kw text) then true
  else decide (specWeakKeywordsC3.countP (fun kw => pyIn kw text) ≥ 2)

/-- Relevance as the amended claim C3 states it: the same precedence chain
with "formal" restored to the weak list, which is the list in the source. -/
def isRelevantAmendedC3 (r : ProcessedRecord) : Bool :=
  let text := relevantText r
  if exclusionKeywords.any (fun kw => pyIn kw text) then false
  else if strongKeywords.any (fun kw => pyIn kw text) then true
  else decide (weakKeywords.countP (fun kw => pyIn kw text) ≥ 2)

/-- Record separating the code from claim C3: its text holds the weak
keywords "formal" and "proof" and nothing stronger. -/
def recFormalProof : ProcessedRecord :=
  { id := some "3001"
    title := some "Formal proof development"
    description := some ""
    creators := []
    keywords := []
    doi := none
    linksSelf := none
    resourceType := none
    accessRight := none
    publicationDate := none
    version := none
    license := none
    crawledAt := "" }

/-- Raw hit with both a nested license id and an access-right tag, separating
the normalizer from claim C6. -/
def hitLicenseProbe : ZenodoHit :=
  { id := some "2001"
    metadata := { title := some "License Probe Tool"
                  description := some "A tool"
                  license := some (some "mit")
                  accessRight := some "open" } }

/-- Raw hit with neither a license object nor an access-right tag. -/
def hitNoLicense : ZenodoHit :=
  { id := some "2002"
    metadata := { title := some "No License Tool"
                  description := some "A tool" } }

/-- Canonical tool the end-to-end scenario produces from `hitCbmc`. -/
def canonicalCbmc : CanonicalTool :=
  { name := "CBMC Bounded Model Checker"
    description := "A bounded model checker for software verification of C programs"
    category := "functional_correctness"
    source := "zenodo"
    source_id := some "1001"
    doi := none
    authors := []
    keywords := ["model checking", "software"]
    url := none
    license := some "open"
    metaCrawledAt := "2025-01-01"
    metaResourceType := none
    metaVersion := "beta-extract" }

/-- Minimal canonical tool with source id a1, for the storage claims. -/
def toolA : CanonicalTool :=
  { name := "Tool A"
    description := ""
    category := "other"
    source := "zenodo"
    source_id := some "a1"
    doi := none
    authors := []
    keywords := []
    url := none
    license := none
    metaCrawledAt := ""
    metaResourceType := none
    metaVersion := "beta-extract" }

/-- Minimal canonical tool with source id b1, for the storage claims. -/
def toolB : CanonicalTool :=
  { toolA with name := "Tool B", source_id := some "b1" }

/-- Fault model in which the second INSERT statement of a call raises. -/
def errSecond : Nat → Bool := fun k => k == 1

/-- String of 600 identical characters, a 600-character cleaned description. -/
def sixHundredAs : String := String.mk (List.replicate 600 'a')

/-- Relevant raw hit with id 42, for the deduplication claims. -/
def hitA : ZenodoHit :=
  { id := some "42"
    metadata := { title := some "Great Theorem Prover"
                  description := some "An interactive theorem prover" } }

/-- Oracle for the C2 witness: the same raw record is returned both by a
query of the functional-correctness category and by a query of the
termination category. -/
def oracleC2 : SearchOracle := fun q _ _ =>
  if q = softwareQuery "program verification" then [hitA]
  else if q = softwareQuery "termination analysis" then [hitA]
  else []

/-- Oracle for the C10 witness: the same raw record is returned by a `run`
query and by a `run_quick` query. -/
def oracleC10 : SearchOracle := fun q _ _ =>
  if q = softwareQuery "program verification" then [hitA]
  else if q = softwareQuery "program verification tool" then [hitA]
  else []

/-- Oracle for the C8 witness: thirty hits on page one of every query, fifty
on every later page. -/
def oracleC8 : SearchOracle := fun _ _ page =>
  if page == 1 then List.replicate 30 {} else List.replicate 50 {}

/-- Concatenation of the first `n` result pages of a size-50 paginated
search, in page order. -/
def pagesAcc (oracle : SearchOracle) (q : String) (n : Nat) : List ZenodoHit :=
  ((List.range' 1 n).map (fun p => searchVerificationTools oracle q 50 p)).flatten

/-- Specification of a finished pagination state: pages were requested in
order starting from 1, the results are their concatenation, a short page is
only ever the last request, and every request was issued while the
accumulated count was still below the cap. -/
def PagSpec (oracle : SearchOracle) (q : String) (maxResults : Nat)
    (r : List ZenodoHit × List Nat) : Prop :=
  r.2 = List.range' 1 r.2.length ∧
  r.1 = (r.2.map (fun p => searchVerificationTools oracle q 50 p)).flatten ∧
  (∀ p ∈ r.2, (searchVerificationTools oracle q 50 p).length < 50 → ∀ p2 ∈ r.2, p2 ≤ p) ∧
  (∀ p ∈ r.2, (pagesAcc oracle q (p - 1)).length < maxResults)

/-- Title used to witness the category tie-break of claim C4. -/
def titleC4 : String := "Termination analysis for neural network controllers"

/-- Flattened hit stream of one `run_quick` invocation, in execution order. -/
def quickHits (oracle : SearchOracle) : List ZenodoHit :=
  (quickQueries.map (fun q => searchVerificationTools oracle q 10 1)).flatten

/-- Invariant tying a crawl state to the seen-id state `seen0` it started
from: the starting ids are still marked seen, every emitted record has a
nonempty id that is marked seen and was not in `seen0`, and no two emitted
records share an id. -/
def SeenInv (seen0 : List String) (st : List String × List ProcessedRecord) : Prop :=
  (∀ x ∈ seen0, x ∈ st.1) ∧
  (∀ r ∈ st.2, pid r ≠ "" ∧ pid r ∈ st.1 ∧ pid r ∉ seen0) ∧
  (st.2.map pid).Nodup

lemma saveLoop_spec (err : Nat → Bool) :
    ∀ (data : List CanonicalTool) (committed pending : List ToolRow) (inserted : Nat),
      ((saveLoop err data committed pending inserted).2.2 = true →
        (saveLoop err data committed pending inserted).2.1 = committed) ∧
      ((saveLoop err data committed pending inserted).2.2 = false →
        (saveLoop err data committed pending inserted).2.1.length + inserted
          = committed.length + pending.length + (saveLoop err data committed pending inserted).1) := by
  intro data
  induction data with
  | nil =>
    intro committed pending inserted
    constructor
    · intro h; simp [saveLoop] at h
    · intro _; simp [saveLoop]
  | cons item rest ih =>
    intro committed pending inserted
    simp only [saveLoop]
    by_cases hdup :
        ((committed ++ pending).any (fun row => sqlEq row.source_id item.source_id)) = true
    · rw [if_pos hdup]
      exact ih committed pending inserted
    · rw [if_neg hdup]
      by_cases herr : err inserted = true
      · rw [if_pos herr]
        refine ⟨fun _ => rfl, fun h => ?_⟩
        simp at h
      · rw [if_neg herr]
        have h := ih committed (pending ++ [mkToolRow item]) (inserted + 1)
        refine ⟨h.1, fun hf => ?_⟩
        have h2 := h.2 hf
        simp only [List.length_append, List.length_cons, List.length_nil] at h2 ⊢
        omega

/-- Claim C9, amended: when a store error hits an INSERT partway through the
batch, the error is caught and the open transaction is rolled back; since
every insert of the call sat in that one uncommitted transaction, the store
is left exactly as before the call, while the method returns the number of
INSERT statements executed before the failure (so the returned count can
exceed the rows actually persisted).  Without an error the call persists
exactly the returned number of new rows. -/
theorem save_to_database_rollback_c9 (err : Nat → Bool) (db : List ToolRow)
    (data : List CanonicalTool) :
    ((saveToDatabaseF err db data).2.2 = true → (saveToDatabaseF err db data).2.1 = db) ∧
    ((saveToDatabaseF err db data).2.2 = false →
      (saveToDatabaseF err db data).2.1.length = db.length + (saveToDatabaseF err db data).1) := by
  have h := saveLoop_spec err data db [] 0
  refine ⟨fun hh => h.1 hh, fun hh => ?_⟩
  have h2 := h.2 hh
  simpa using h2

/-- Claim C9, counterexample to the claim as stated: with the second INSERT
of a two-record batch failing, the call reports an inserted-count of 1 while
the rollback leaves zero rows persisted, so the returned count is not the
committed-before-failure count (0) and exceeds the rows actually persisted. -/
theorem save_to_database_overreport_c9 :
    (saveToDatabaseF errSecond [] [toolA, toolB]).1 = 1 ∧
    (saveToDatabaseF errSecond [] [toolA, toolB]).2.1 = [] ∧
    (saveToDatabaseF errSecond [] [toolA, toolB]).2.2 = true := by
  decide

/-- Witness for the amended claim C9 at concrete inputs: the failing branch
with its rollback, and the fault-free branch with its exact row count. -/
theorem save_to_database_rollback_c9_witness :
    (saveToDatabaseF errSecond [] [toolA, toolB]).2.1 = [] ∧
    (saveToDatabaseF (fun _ => false) [] [toolA, toolB]).2.1.length
      = ([] : List ToolRow).length + (saveToDatabaseF (fun _ => false) [] [toolA, toolB]).1 :=
  ⟨(save_to_database_rollback_c9 errSecond [] [toolA, toolB]).1 (by decide),
   (save_to_database_rollback_c9 (fun _ => false) [] [toolA, toolB]).2 (by decide)⟩

/-- Claim C1: inserting a canonical record whose source id is not yet in the
store, then inserting a record with the same source id again — in a second
call or in the same batch — persists exactly one row for that source id, the
inserted-counts total 1, and the second insertion leaves the store
unmodified. -/
theorem save_to_database_idempotent_c1 (db : List ToolRow) (t t' : CanonicalTool) (s : String)
    (hs : t.source_id = some s) (hs' : t'.source_id = some s)
    (hdb : db.any (fun row => sqlEq row.source_id (some s)) = false) :
    saveToDatabase db [t] = (1, db ++ [mkToolRow t]) ∧
    saveToDatabase (db ++ [mkToolRow t]) [t'] = (0, db ++ [mkToolRow t]) ∧
    (saveToDatabase db [t]).1 + (saveToDatabase (db ++ [mkToolRow t]) [t']).1 = 1 ∧
    saveToDatabase db [t, t'] = (1, db ++ [mkToolRow t]) ∧
    ((db ++ [mkToolRow t]).filter (fun row => sqlEq row.source_id (some s))).length = 1 := by
  have hrow : sqlEq (mkToolRow t).source_id (some s) = true := by
    simp [mkToolRow, hs, sqlEq]
  have e1 : saveToDatabase db [t] = (1, db ++ [mkToolRow t]) := by
    simp [saveToDatabase, saveToDatabaseF, saveLoop, hs, hdb]
  have e2 : saveToDatabase (db ++ [mkToolRow t]) [t'] = (0, db ++ [mkToolRow t]) := by
    simp [saveToDatabase, saveToDatabaseF, saveLoop, hs', hdb, List.any_append, hrow]
  have e4 : saveToDatabase db [t, t'] = (1, db ++ [mkToolRow t]) := by
    simp [saveToDatabase, saveToDatabaseF, saveLoop, hs, hs', hdb, List.any_append, hrow]
  have e5 : ((db ++ [mkToolRow t]).filter (fun row => sqlEq row.source_id (some s))).length = 1 := by
    have hnil : db.filter (fun row => sqlEq row.source_id (some s)) = [] :=
      List.filter_eq_nil_iff.mpr (List.any_eq_false.mp hdb)
    simp [List.filter_append, hnil, hrow]
  exact ⟨e1, e2, by simp [e1, e2], e4, e5⟩

/-- Witness for claim C1 at concrete inputs: the same canonical record saved
twice into an initially empty store. -/
theorem save_to_database_idempotent_c1_witness :
    saveToDatabase [] [toolA] = (1, [] ++ [mkToolRow toolA]) ∧
    saveToDatabase ([] ++ [mkToolRow toolA]) [toolA] = (0, [] ++ [mkToolRow toolA]) ∧
    saveToDatabase [] [toolA, toolA] = (1, [] ++ [mkToolRow toolA]) :=
  ⟨(save_to_database_idempotent_c1 [] toolA toolA "a1" rfl rfl (by decide)).1,
   (save_to_database_idempotent_c1 [] toolA toolA "a1" rfl rfl (by decide)).2.1,
   (save_to_database_idempotent_c1 [] toolA toolA "a1" rfl rfl (by decide)).2.2.2.1⟩

/-- Claim C3, counterexample: the record titled "Formal proof development"
contains the weak keywords "formal" and "proof" and nothing stronger, so the
code classifies it relevant, while the claim with its twelve-entry weak list
(which omits "formal") counts only one weak keyword and classifies it not
relevant. -/
theorem is_relevant_weak_list_c3_counterexample :
    isRelevantTool recFormalProof = true ∧ isRelevantClaimC3 recFormalProof = false := by
  decide

/-- Claim C3, amended: relevance follows the precedence chain exclusion over
strong match over weak-count threshold of at least 2, with the weak list
containing the thirteen entries of the source — the twelve the claim lists
plus "formal". -/
theorem is_relevant_chain_c3 (r : ProcessedRecord) :
    isRelevantTool r = isRelevantAmendedC3 r :=
  rfl

/-- Claim C4: category assignment is the first matching rule in the fixed
order neural/deep-learning, termination, complexity/bounds, qbf/boolean,
correctness/verification, other, over the lowercased concatenation of title,
description and keywords. -/
theorem categorize_order_c4 (title description : String) (keywords : List String) :
    ((pyIn "neural" (categText title description keywords)
        || pyIn "deep learning" (categText title description keywords)) = true →
      categorizeTool title description keywords = "neural_network_verification") ∧
    ((pyIn "neural" (categText title description keywords)
        || pyIn "deep learning" (categText title description keywords)) = false →
      pyIn "termination" (categText title description keywords) = true →
      categorizeTool title description keywords = "termination") ∧
    ((pyIn "neural" (categText title description keywords)
        || pyIn "deep learning" (categText title description keywords)) = false →
      pyIn "termination" (categText title description keywords) = false →
      (pyIn "complexity" (categText title description keywords)
        || pyIn "bounds" (categText title description keywords)) = true →
      categorizeTool title description keywords = "complexity_bounds") ∧
    ((pyIn "neural" (categText title description keywords)
        || pyIn "deep learning" (categText title description keywords)) = false →
      pyIn "termination" (categText title description keywords) = false →
      (pyIn "complexity" (categText title description keywords)
        || pyIn "bounds" (categText title description keywords)) = false →
      (pyIn "qbf" (categText title description keywords)
        || pyIn "boolean" (categText title description keywords)) = true →
      categorizeTool title description keywords = "qbf_solver") ∧
    ((pyIn "neural" (categText title description keywords)
        || pyIn "deep learning" (categText title description keywords)) = false →
      pyIn "termination" (categText title description keywords) = false →
      (pyIn "complexity" (categText title description keywords)
        || pyIn "bounds" (categText title description keywords)) = false →
      (pyIn "qbf" (categText title description keywords)
        || pyIn "boolean" (categText title description keywords)) = false →
      (pyIn "correctness" (categText title description keywords)
        || pyIn "verification" (categText title description keywords)) = true →
      categorizeTool title description keywords = "functional_correctness") ∧
    ((pyIn "neural" (categText title description keywords)
        || pyIn "deep learning" (categText title description keywords)) = false →
      pyIn "termination" (categText title description keywords) = false →
      (pyIn "complexity" (categText title description keywords)
        || pyIn "bounds" (categText title description keywords)) = false →
      (pyIn "qbf" (categText title description keywords)
        || pyIn "boolean" (categText title description keywords)) = false →
      (pyIn "correctness" (categText title description keywords)
        || pyIn "verification" (categText title description keywords)) = false →
      categorizeTool title description keywords = "other") := by
  refine ⟨?_, ?_, ?_, ?_, ?_, ?_⟩ <;> intros <;> simp_all [categorizeTool]

/-- Witness for claim C4 at a concrete record containing both "neural
network" and "termination": the first rule wins. -/
theorem categorize_order_c4_witness :
    pyIn "neural network" (categText titleC4 "" []) = true ∧
    pyIn "termination" (categText titleC4 "" []) = true ∧
    categorizeTool titleC4 "" [] = "neural_network_verification" :=
  ⟨by decide, by decide, (categorize_order_c4 titleC4 "" []).1 (by decide)⟩

/-- Claim C5, counterexample: the description " abc" contains no HTML tag,
its cleaned text has 4 characters (at most 500), yet it is not stored
unchanged — the final `strip()` of the cleaner removes the leading blank. -/
theorem clean_description_c5_counterexample :
    stripHtml " abc" = " abc" ∧ (stripHtml " abc").length ≤ 500 ∧
    cleanDescription (some " abc") = "abc" ∧ cleanDescription (some " abc") ≠ " abc" := by
  decide

/-- Claim C5, amended: after HTML stripping the stored value is additionally
whitespace-trimmed — a cleaned text of 600 characters is stored as its first
497 characters plus "..." and then trimmed (500 characters exactly when no
leading whitespace survives), a cleaned text of at most 500 characters is
stored trimmed but otherwise unchanged, and an absent or empty description is
stored as the empty string. -/
theorem clean_description_c5 (s : String) :
    cleanDescription none = "" ∧ cleanDescription (some "") = "" ∧
    ((stripHtml s).length ≤ 500 → cleanDescription (some s) = pyStrip (stripHtml s)) ∧
    ((stripHtml s).length = 600 →
      cleanDescription (some s) = pyStrip (pyTake 497 (stripHtml s) ++ "...")) := by
  refine ⟨rfl, rfl, ?_, ?_⟩
  · intro h
    by_cases hs : s = ""
    · subst hs; decide
    · simp only [cleanDescription, if_neg hs]
      have hgt : ¬ (stripHtml s).length > 500 := by omega
      simp [hgt]
  · intro h
    have hs : s ≠ "" := by
      intro he
      rw [he] at h
      exact absurd h (by decide)
    simp only [cleanDescription, if_neg hs]
    have hgt : (stripHtml s).length > 500 := by omega
    simp [hgt]

set_option maxRecDepth 4000 in
/-- Witness for the amended claim C5 at concrete inputs: a 600-character
cleaned text is truncated to 497 characters plus the ellipsis, and a short
cleaned text is stored as its trimmed self. -/
theorem clean_description_c5_witness :
    (stripHtml sixHundredAs).length = 600 ∧
    cleanDescription (some sixHundredAs) = pyStrip (pyTake 497 (stripHtml sixHundredAs) ++ "...") ∧
    (cleanDescription (some sixHundredAs)).length = 500 ∧
    (stripHtml "short text").length ≤ 500 ∧
    cleanDescription (some "short text") = pyStrip (stripHtml "short text") :=
  ⟨by decide, (clean_description_c5 sixHundredAs).2.2.2 (by decide), by decide,
   by decide, (clean_description_c5 "short text").2.2.1 (by decide)⟩

/-- Claim C6, divergence: the crawler extracts the nested license id (here
"mit") into the record, but the normalizer fills the canonical license field
from the access-right value instead — "open" here, and None (not "unknown")
when the access right is absent. -/
theorem license_from_access_right_c6 :
    hitLicenseProbe.metadata.license = some (some "mit") ∧
    (extractRelevantData "t" hitLicenseProbe).license = some "mit" ∧
    (standardizeToolData (extractRelevantData "t" hitLicenseProbe)).map CanonicalTool.license
      = some (some "open") ∧
    hitNoLicense.metadata.license = none ∧
    (standardizeToolData (extractRelevantData "t" hitNoLicense)).map CanonicalTool.license
      = some none := by
  decide

/-- Claim C7: on the three scenario records the pipeline admits 3 raw hits,
drops the patient-survey record at the relevance filter, drops the
empty-title record at validation, normalizes exactly one canonical tool
(category functional_correctness), and the store gains exactly one row with
an inserted-count of 1. -/
theorem pipeline_end_to_end_c7 :
    (runTriples oracleC7 ["functional_correctness"]).length = 3 ∧
    (runCrawler oracleC7 "2025-01-01" (some ["functional_correctness"]) []).2.length = 2 ∧
    relevanceDrops "2025-01-01" (runTriples oracleC7 ["functional_correctness"]) [] = 1 ∧
    countInvalid (runCrawler oracleC7 "2025-01-01" (some ["functional_correctness"]) []).2 = 1 ∧
    countParseErrors (runCrawler oracleC7 "2025-01-01" (some ["functional_correctness"]) []).2 = 0 ∧
    parseZenodoData (runCrawler oracleC7 "2025-01-01" (some ["functional_correctness"]) []).2
      = [canonicalCbmc] ∧
    canonicalCbmc.category = "functional_correctness" ∧
    saveToDatabase []
        (parseZenodoData (runCrawler oracleC7 "2025-01-01" (some ["functional_correctness"]) []).2)
      = (1, [mkToolRow canonicalCbmc]) := by
  decide

lemma pagesAcc_succ (oracle : SearchOracle) (q : String) (n : Nat) :
    pagesAcc oracle q (n + 1)
      = pagesAcc oracle q n ++ searchVerificationTools oracle q 50 (n + 1) := by
  simp only [pagesAcc, List.range'_1_concat, List.map_append, List.flatten_append,
    List.map_cons, List.map_nil, List.flatten_cons, List.flatten_nil, List.append_nil,
    Nat.add_comm 1 n]

lemma searchPages_aux (oracle : SearchOracle) (q : String) (maxResults : Nat) :
    ∀ (fuel n : Nat),
      (∀ p ∈ List.range' 1 n, 50 ≤ (searchVerificationTools oracle q 50 p).length) →
      (∀ p ∈ List.range' 1 n, (pagesAcc oracle q (p - 1)).length < maxResults) →
      PagSpec oracle q maxResults
        (searchPagesFuel oracle q maxResults fuel (n + 1) (pagesAcc oracle q n)
          (List.range' 1 n)) := by
  intro fuel
  induction fuel with
  | zero =>
    intro n hfull hpart
    refine ⟨?_, rfl, ?_, hpart⟩
    · simp [searchPagesFuel, List.length_range']
    · intro p hp hshort
      exact absurd (hfull p hp) (by omega)
  | succ fuel ih =>
    intro n hfull hpart
    by_cases hguard : (pagesAcc oracle q n).length < maxResults
    · by_cases hshort : (searchVerificationTools oracle q 50 (n + 1)).length < 50
      · have hstep :
            searchPagesFuel oracle q maxResults (fuel + 1) (n + 1) (pagesAcc oracle q n)
              (List.range' 1 n)
            = (pagesAcc oracle q n ++ searchVerificationTools oracle q 50 (n + 1),
               List.range' 1 n ++ [n + 1]) := by
          simp [searchPagesFuel, hguard, hshort]
        rw [hstep]
        have hconcat : List.range' 1 n ++ [n + 1] = List.range' 1 (n + 1) := by
          rw [List.range'_1_concat, Nat.add_comm 1 n]
        refine ⟨?_, ?_, ?_, ?_⟩
        · simp only [hconcat, List.length_range']
        · simp only [hconcat, ← pagesAcc_succ]
          rfl
        · intro p hp hps p2 hp2
          rw [hconcat, List.mem_range'_1] at hp hp2
          rcases Nat.lt_or_ge p (n + 1) with hlt | hge
          · have hpmem : p ∈ List.range' 1 n := by
              rw [List.mem_range'_1]
              omega
            exact absurd (hfull p hpmem) (by omega)
          · omega
        · intro p hp
          rw [hconcat, List.mem_range'_1] at hp
          rcases Nat.lt_or_ge p (n + 1) with hlt | hge
          · exact hpart p (by rw [List.mem_range'_1]; omega)
          · have hpn : p = n + 1 := by omega
            subst hpn
            simpa using hguard
      · have hstep :
            searchPagesFuel oracle q maxResults (fuel + 1) (n + 1) (pagesAcc oracle q n)
              (List.range' 1 n)
            = searchPagesFuel oracle q maxResults fuel (n + 1 + 1)
                (pagesAcc oracle q n ++ searchVerificationTools oracle q 50 (n + 1))
                (List.range' 1 n ++ [n + 1]) := by
          simp [searchPagesFuel, hguard, hshort]
        rw [hstep, ← pagesAcc_succ,
          show List.range' 1 n ++ [n + 1] = List.range' 1 (n + 1) by
            rw [List.range'_1_concat, Nat.add_comm 1 n]]
        apply ih (n + 1)
        · intro p hp
          rw [List.mem_range'_1] at hp
          rcases Nat.lt_or_ge p (n + 1) with hlt | hge
          · exact hfull p (by rw [List.mem_range'_1]; omega)
          · have hpn : p = n + 1 := by omega
            subst hpn
            omega
        · intro p hp
          rw [List.mem_range'_1] at hp
          rcases Nat.lt_or_ge p (n + 1) with hlt | hge
          · exact hpart p (by rw [List.mem_range'_1]; omega)
          · have hpn : p = n + 1 := by omega
            subst hpn
            simpa using hguard
    · have hstep :
          searchPagesFuel oracle q maxResults (fuel + 1) (n + 1) (pagesAcc oracle q n)
            (List.range' 1 n)
          = (pagesAcc oracle q n, List.range' 1 n) := by
        simp [searchPagesFuel, hguard]
      rw [hstep]
      refine ⟨?_, rfl, ?_, hpart⟩
      · simp [List.length_range']
      · intro p hp hshort
        exact absurd (hfull p hp) (by omega)

/-- Claim C8: pagination accumulates pages in order starting at page 1, the
returned list is the page concatenation truncated to `maxResults` (so never
longer than `maxResults`), a page shorter than the page size 50 is always the
last page requested, and every page request happens while the accumulated
count is still below `maxResults`. -/
theorem pagination_c8 (oracle : SearchOracle) (q : String) (maxResults : Nat) :
    (searchWithPagination oracle q maxResults).1.length ≤ maxResults ∧
    (searchWithPagination oracle q maxResults).2
      = List.range' 1 (searchWithPagination oracle q maxResults).2.length ∧
    (searchWithPagination oracle q maxResults).1
      = (((searchWithPagination oracle q maxResults).2.map
            (fun p => searchVerificationTools oracle q 50 p)).flatten).take maxResults ∧
    (∀ p ∈ (searchWithPagination oracle q maxResults).2,
       (searchVerificationTools oracle q 50 p).length < 50 →
       ∀ p2 ∈ (searchWithPagination oracle q maxResults).2, p2 ≤ p) ∧
    (∀ p ∈ (searchWithPagination oracle q maxResults).2,
       (pagesAcc oracle q (p - 1)).length < maxResults) := by
  have h := searchPages_aux oracle q maxResults (maxResults + 1) 0
    (by simp [List.range']) (by simp [List.range'])
  simp only [show (0 : Nat) + 1 = 1 from rfl, show pagesAcc oracle q 0 = [] from rfl,
    show List.range' 1 0 = [] from rfl] at h
  obtain ⟨h1, h2, h3, h4⟩ := h
  simp only [searchWithPagination]
  refine ⟨List.length_take_le _ _, h1, by rw [h2], h3, h4⟩

/-- Witness for claim C8: an oracle whose first page holds 30 results makes
the crawl request page 1 only, and the result stays within the cap. -/
theorem pagination_c8_witness :
    (searchWithPagination oracleC8 "program verification" 100).2 = [1] ∧
    (searchVerificationTools oracleC8 "program verification" 50 1).length < 50 ∧
    (∀ p2 ∈ (searchWithPagination oracleC8 "program verification" 100).2, p2 ≤ 1) ∧
    (searchWithPagination oracleC8 "program verification" 100).1.length ≤ 100 :=
  ⟨by decide, by decide,
   (pagination_c8 oracleC8 "program verification" 100).2.2.2.1 1 (by decide) (by decide),
   (pagination_c8 oracleC8 "program verification" 100).1⟩

lemma pid_mkProcessed (now cat q : String) (h : ZenodoHit) :
    pid (mkProcessed now cat q h) = hitId h :=
  rfl

lemma pid_extract (now : String) (h : ZenodoHit) :
    pid (extractRelevantData now h) = hitId h :=
  rfl

lemma foldl_query_triples (oracle : SearchOracle) (now cat q : String)
    (st : List String × List ProcessedRecord) :
    (searchVerificationTools oracle q 25 1).foldl (crawlStep now cat q) st
      = (queryTriples oracle cat q).foldl (crawlStepT now) st := by
  simp only [queryTriples, List.foldl_map]
  rfl

lemma foldl_cat_triples (oracle : SearchOracle) (now cat : String) :
    ∀ (qs : List String) (st : List String × List ProcessedRecord),
      qs.foldl (fun st q =>
          (searchVerificationTools oracle q 25 1).foldl (crawlStep now cat q) st) st
        = ((qs.map (queryTriples oracle cat)).flatten).foldl (crawlStepT now) st := by
  intro qs
  induction qs with
  | nil => intro st; rfl
  | cons q qs ih =>
    intro st
    simp only [List.foldl_cons, List.map_cons, List.flatten_cons, List.foldl_append]
    rw [foldl_query_triples, ih]

lemma runCrawler_cats (oracle : SearchOracle) (now : String) :
    ∀ (cats : List String) (st : List String × List ProcessedRecord),
      cats.foldl (fun st cat =>
          match List.lookup cat SEARCH_QUERIES with
          | none => st
          | some qs => qs.foldl (fun st q =>
              (searchVerificationTools oracle q 25 1).foldl (crawlStep now cat q) st) st) st
        = (runTriples oracle cats).foldl (crawlStepT now) st := by
  intro cats
  induction cats with
  | nil => intro st; rfl
  | cons c cs ih =>
    intro st
    simp only [List.foldl_cons, runTriples, List.map_cons, List.flatten_cons, List.foldl_append]
    rw [ih]
    cases hl : List.lookup c SEARCH_QUERIES with
    | none => simp [runTriples, catTriples, hl]
    | some qs =>
      simp only [runTriples, catTriples, hl]
      rw [foldl_cat_triples]

lemma runCrawler_foldT (oracle : SearchOracle) (now : String) (catsOpt : Option (List String))
    (seen0 : List String) :
    runCrawler oracle now catsOpt seen0
      = (runTriples oracle (resolveCats catsOpt)).foldl (crawlStepT now) (seen0, []) :=
  runCrawler_cats oracle now (resolveCats catsOpt) (seen0, [])

lemma runQuick_foldT (oracle : SearchOracle) (now : String) (seen0 : List String) :
    runQuick oracle now seen0 = (quickHits oracle).foldl (quickStep now) (seen0, []) := by
  have hgen : ∀ (qs : List String) (st : List String × List ProcessedRecord),
      qs.foldl (fun st q =>
          (searchVerificationTools oracle q 10 1).foldl (quickStep now) st) st
        = ((qs.map (fun q => searchVerificationTools oracle q 10 1)).flatten).foldl
            (quickStep now) st := by
    intro qs
    induction qs with
    | nil => intro st; rfl
    | cons q qs ih =>
      intro st
      simp only [List.foldl_cons, List.map_cons, List.flatten_cons, List.foldl_append]
      rw [ih]
  exact hgen quickQueries (seen0, [])

lemma crawlStep_inv (now cat q : String) (seen0 : List String)
    (st : List String × List ProcessedRecord) (h : ZenodoHit)
    (hI : SeenInv seen0 st) :
    SeenInv seen0 (crawlStep now cat q st h) ∧
    (∀ x ∈ st.1, x ∈ (crawlStep now cat q st h).1) := by
  obtain ⟨hseen, hrec, hnd⟩ := hI
  by_cases h1 : hitId h = ""
  · simp only [crawlStep, if_pos h1]
    exact ⟨⟨hseen, hrec, hnd⟩, fun x hx => hx⟩
  · by_cases h2 : st.1.contains (hitId h) = true
    · simp only [crawlStep, if_neg h1, if_pos h2]
      exact ⟨⟨hseen, hrec, hnd⟩, fun x hx => hx⟩
    · have hnotmem : hitId h ∉ st.1 := fun hm => h2 (List.elem_iff.mpr hm)
      by_cases h3 : isRelevantTool (mkProcessed now cat q h) = true
      · simp only [crawlStep, if_neg h1, if_neg h2, if_pos h3]
        refine ⟨⟨?_, ?_, ?_⟩, ?_⟩
        · intro x hx
          exact List.mem_cons_of_mem _ (hseen x hx)
        · intro r hr
          rcases List.mem_append.mp hr with hr | hr
          · obtain ⟨ha, hb, hc⟩ := hrec r hr
            exact ⟨ha, List.mem_cons_of_mem _ hb, hc⟩
          · rw [List.mem_singleton.mp hr, pid_mkProcessed]
            exact ⟨h1, List.mem_cons_self _ _, fun hmem => hnotmem (hseen _ hmem)⟩
        · rw [List.map_append]
          refine List.Nodup.append hnd (by simp) ?_
          intro a ha hb
          rw [List.map_cons, List.map_nil, List.mem_singleton, pid_mkProcessed] at hb
          obtain ⟨r, hr, hpr⟩ := List.mem_map.mp ha
          exact hnotmem (hb ▸ hpr ▸ (hrec r hr).2.1)
        · intro x hx
          exact List.mem_cons_of_mem _ hx
      · simp only [crawlStep, if_neg h1, if_neg h2, if_neg h3]
        refine ⟨⟨?_, ?_, hnd⟩, ?_⟩
        · intro x hx
          exact List.mem_cons_of_mem _ (hseen x hx)
        · intro r hr
          obtain ⟨ha, hb, hc⟩ := hrec r hr
          exact ⟨ha, List.mem_cons_of_mem _ hb, hc⟩
        · intro x hx
          exact List.mem_cons_of_mem _ hx

lemma quickStep_inv (now : String) (seen0 : List String)
    (st : List String × List ProcessedRecord) (h : ZenodoHit)
    (hI : SeenInv seen0 st) :
    SeenInv seen0 (quickStep now st h) ∧
    (∀ x ∈ st.1, x ∈ (quickStep now st h).1) := by
  obtain ⟨hseen, hrec, hnd⟩ := hI
  by_cases h1 : hitId h = ""
  · simp only [quickStep, if_pos h1]
    exact ⟨⟨hseen, hrec, hnd⟩, fun x hx => hx⟩
  · by_cases h2 : st.1.contains (hitId h) = true
    · simp only [quickStep, if_neg h1, if_pos h2]
      exact ⟨⟨hseen, hrec, hnd⟩, fun x hx => hx⟩
    · have hnotmem : hitId h ∉ st.1 := fun hm => h2 (List.elem_iff.mpr hm)
      simp only [quickStep, if_neg h1, if_neg h2]
      refine ⟨⟨?_, ?_, ?_⟩, ?_⟩
      · intro x hx
        exact List.mem_cons_of_mem _ (hseen x hx)
      · intro r hr
        rcases List.mem_append.mp hr with hr | hr
        · obtain ⟨ha, hb, hc⟩ := hrec r hr
          exact ⟨ha, List.mem_cons_of_mem _ hb, hc⟩
        · rw [List.mem_singleton.mp hr]
          refine ⟨?_, ?_, ?_⟩
          · rw [pid_extract]; exact h1
          · rw [pid_extract]; exact List.mem_cons_self _ _
          · rw [pid_extract]; intro hmem; exact hnotmem (hseen _ hmem)
      · rw [List.map_append]
        refine List.Nodup.append hnd (by simp) ?_
        intro a ha hb
        rw [List.map_cons, List.map_nil, List.mem_singleton, pid_extract] at hb
        obtain ⟨r, hr, hpr⟩ := List.mem_map.mp ha
        exact hnotmem (hb ▸ hpr ▸ (hrec r hr).2.1)
      · intro x hx
        exact List.mem_cons_of_mem _ hx

lemma foldl_crawl_inv (now : String) (seen0 : List String) :
    ∀ (ts : List Triple) (st : List String × List ProcessedRecord),
      SeenInv seen0 st →
      SeenInv seen0 (ts.foldl (crawlStepT now) st) ∧
      (∀ x ∈ st.1, x ∈ (ts.foldl (crawlStepT now) st).1) := by
  intro ts
  induction ts with
  | nil => intro st h; exact ⟨h, fun x hx => hx⟩
  | cons t ts ih =>
    intro st h
    rw [List.foldl_cons]
    have hstep := crawlStep_inv now t.1 t.2.1 seen0 st t.2.2 h
    have hrest := ih (crawlStepT now st t) hstep.1
    exact ⟨hrest.1, fun x hx => hrest.2 x (hstep.2 x hx)⟩

lemma foldl_quick_inv (now : String) (seen0 : List String) :
    ∀ (hs : List ZenodoHit) (st : List String × List ProcessedRecord),
      SeenInv seen0 st →
      SeenInv seen0 (hs.foldl (quickStep now) st) ∧
      (∀ x ∈ st.1, x ∈ (hs.foldl (quickStep now) st).1) := by
  intro hs
  induction hs with
  | nil => intro st h; exact ⟨h, fun x hx => hx⟩
  | cons hh hs ih =>
    intro st h
    rw [List.foldl_cons]
    have hstep := quickStep_inv now seen0 st hh h
    have hrest := ih (quickStep now st hh) hstep.1
    exact ⟨hrest.1, fun x hx => hrest.2 x (hstep.2 x hx)⟩

lemma seenInv_init (seen0 : List String) : SeenInv seen0 (seen0, []) :=
  ⟨fun _ hx => hx, by simp, by simp⟩

lemma runCrawler_spec (oracle : SearchOracle) (now : String) (catsOpt : Option (List String))
    (seen0 : List String) :
    SeenInv seen0 (runCrawler oracle now catsOpt seen0) ∧
    (∀ x ∈ seen0, x ∈ (runCrawler oracle now catsOpt seen0).1) := by
  rw [runCrawler_foldT]
  have h := foldl_crawl_inv now seen0 (runTriples oracle (resolveCats catsOpt)) (seen0, [])
    (seenInv_init seen0)
  exact ⟨h.1, fun x hx => h.2 x hx⟩

lemma runQuick_spec (oracle : SearchOracle) (now : String) (seen0 : List String) :
    SeenInv seen0 (runQuick oracle now seen0) ∧
    (∀ x ∈ seen0, x ∈ (runQuick oracle now seen0).1) := by
  rw [runQuick_foldT]
  have h := foldl_quick_inv now seen0 (quickHits oracle) (seen0, []) (seenInv_init seen0)
  exact ⟨h.1, fun x hx => h.2 x hx⟩

lemma applyCall_spec (oracle : SearchOracle) (now : String) (seen0 : List String)
    (c : CrawlCall) :
    SeenInv seen0 (applyCall oracle now seen0 c) ∧
    (∀ x ∈ seen0, x ∈ (applyCall oracle now seen0 c).1) := by
  cases c with
  | fullRun catsOpt => exact runCrawler_spec oracle now catsOpt seen0
  | quickRun => exact runQuick_spec oracle now seen0

lemma crawlOutputs_spec (oracle : SearchOracle) (now : String) :
    ∀ (calls : List CrawlCall) (seen : List String),
      (((crawlOutputs oracle now seen calls).flatten).map pid).Nodup ∧
      (∀ r ∈ (crawlOutputs oracle now seen calls).flatten, pid r ≠ "" ∧ pid r ∉ seen) := by
  intro calls
  induction calls with
  | nil =>
    intro seen
    constructor
    · simp [crawlOutputs]
    · simp [crawlOutputs]
  | cons c cs ih =>
    intro seen
    obtain ⟨⟨hs0, hrec, hnd⟩, hmono⟩ := applyCall_spec oracle now seen c
    have hrest := ih (applyCall oracle now seen c).1
    simp only [crawlOutputs, List.flatten_cons, List.map_append]
    constructor
    · refine List.Nodup.append hnd hrest.1 ?_
      intro a ha hb
      obtain ⟨r, hr, hpr⟩ := List.mem_map.mp ha
      obtain ⟨r2, hr2, hpr2⟩ := List.mem_map.mp hb
      exact (hrest.2 r2 hr2).2 (hpr2 ▸ hpr ▸ (hrec r hr).2.1)
    · intro r hr
      rcases List.mem_append.mp hr with hr | hr
      · exact ⟨(hrec r hr).1, (hrec r hr).2.2⟩
      · refine ⟨(hrest.2 r hr).1, fun hmem => (hrest.2 r hr).2 (hmono _ hmem)⟩

lemma countP_pid_le_one (l : List ProcessedRecord) (hl : (l.map pid).Nodup) (id : String) :
    l.countP (fun r => pid r == id) ≤ 1 := by
  induction l with
  | nil => simp
  | cons r t ih =>
    rw [List.map_cons, List.nodup_cons] at hl
    obtain ⟨hnot, hnd⟩ := hl
    rw [List.countP_cons]
    by_cases hq : (pid r == id) = true
    · have hz : t.countP (fun r2 => pid r2 == id) = 0 := by
        rw [List.countP_eq_zero]
        intro a ha hpa
        have h1 : pid a = id := by simpa using hpa
        have h2 : pid r = id := by simpa using hq
        exact hnot (h2 ▸ h1 ▸ List.mem_map_of_mem pid ha)
      simp [hq, hz]
    · have hq2 : (pid r == id) = false := by simpa using hq
      simpa [hq2] using ih hnd

lemma foldl_crawl_blocked (now : String) :
    ∀ (ts : List Triple) (seen : List String) (acc : List ProcessedRecord) (id : String),
      id ∈ seen →
      ((ts.foldl (crawlStepT now) (seen, acc)).2.filter (fun r => pid r == id))
        = acc.filter (fun r => pid r == id) := by
  intro ts
  induction ts with
  | nil => intro seen acc id _; rfl
  | cons t ts ih =>
    intro seen acc id hid
    rw [List.foldl_cons]
    by_cases h1 : hitId t.2.2 = ""
    · have hstep : crawlStepT now (seen, acc) t = (seen, acc) := by
        simp [crawlStepT, crawlStep, h1]
      rw [hstep]
      exact ih seen acc id hid
    · by_cases h2 : hitId t.2.2 ∈ seen
      · have hstep : crawlStepT now (seen, acc) t = (seen, acc) := by
          simp [crawlStepT, crawlStep, h1, h2]
        rw [hstep]
        exact ih seen acc id hid
      · have hne : hitId t.2.2 ≠ id := by
          intro he
          exact h2 (he ▸ hid)
        have hpe : (pid (mkProcessed now t.1 t.2.1 t.2.2) == id) = false := by
          rw [pid_mkProcessed]
          exact beq_eq_false_iff_ne.mpr hne
        by_cases h3 : isRelevantTool (mkProcessed now t.1 t.2.1 t.2.2) = true
        · have hstep : crawlStepT now (seen, acc) t
              = (hitId t.2.2 :: seen, acc ++ [mkProcessed now t.1 t.2.1 t.2.2]) := by
            simp [crawlStepT, crawlStep, h1, h2, h3]
          rw [hstep, ih _ _ id (List.mem_cons_of_mem _ hid), List.filter_append]
          simp [hpe]
        · have hstep : crawlStepT now (seen, acc) t = (hitId t.2.2 :: seen, acc) := by
            simp [crawlStepT, crawlStep, h1, h2, h3]
          rw [hstep]
          exact ih _ _ id (List.mem_cons_of_mem _ hid)

lemma foldl_crawl_first (now : String) :
    ∀ (ts : List Triple) (seen : List String) (acc : List ProcessedRecord)
      (c q : String) (h : ZenodoHit),
      hitId h ≠ "" →
      hitId h ∉ seen →
      (∀ r ∈ acc, pid r ≠ hitId h) →
      ts.find? (fun t => tripleId t == hitId h) = some (c, q, h) →
      isRelevantTool (mkProcessed now c q h) = true →
      ((ts.foldl (crawlStepT now) (seen, acc)).2.filter (fun r => pid r == hitId h))
        = [mkProcessed now c q h] := by
  intro ts
  induction ts with
  | nil =>
    intro seen acc c q h _ _ _ hfind _
    simp [List.find?] at hfind
  | cons t ts ih =>
    intro seen acc c q h hne hns hacc hfind hrel
    rw [List.foldl_cons]
    by_cases hmatch : ((fun t2 => tripleId t2 == hitId h) t) = true
    · have ht : t = (c, q, h) := by
        rw [show (t :: ts).find? (fun t2 => tripleId t2 == hitId h) = some t from
          List.find?_cons_of_pos ts hmatch] at hfind
        exact Option.some.inj hfind
      subst ht
      have hstep : crawlStepT now (seen, acc) (c, q, h)
          = (hitId h :: seen, acc ++ [mkProcessed now c q h]) := by
        simp [crawlStepT, crawlStep, hne, hns, hrel]
      rw [hstep, foldl_crawl_blocked now ts _ _ (hitId h) (List.mem_cons_self _ _),
        List.filter_append]
      have hfacc : acc.filter (fun r => pid r == hitId h) = [] :=
        List.filter_eq_nil_iff.mpr (fun r hr => by simpa using hacc r hr)
      have hp : (pid (mkProcessed now c q h) == hitId h) = true := by
        rw [pid_mkProcessed]
        exact beq_self_eq_true _
      simp [hfacc, hp]
    · have hfind2 : ts.find? (fun t2 => tripleId t2 == hitId h) = some (c, q, h) := by
        rw [show (t :: ts).find? (fun t2 => tripleId t2 == hitId h)
            = ts.find? (fun t2 => tripleId t2 == hitId h) from
          List.find?_cons_of_neg ts hmatch] at hfind
        exact hfind
      have htne : hitId t.2.2 ≠ hitId h := by
        intro he
        refine hmatch ?_
        show (tripleId t == hitId h) = true
        rw [tripleId, he]
        exact beq_self_eq_true _
      by_cases h1 : hitId t.2.2 = ""
      · have hstep : crawlStepT now (seen, acc) t = (seen, acc) := by
          simp [crawlStepT, crawlStep, h1]
        rw [hstep]
        exact ih seen acc c q h hne hns hacc hfind2 hrel
      · by_cases h2 : hitId t.2.2 ∈ seen
        · have hstep : crawlStepT now (seen, acc) t = (seen, acc) := by
            simp [crawlStepT, crawlStep, h1, h2]
          rw [hstep]
          exact ih seen acc c q h hne hns hacc hfind2 hrel
        · have hns2 : hitId h ∉ hitId t.2.2 :: seen := by
            intro hm
            rcases List.mem_cons.mp hm with hm | hm
            · exact htne hm.symm
            · exact hns hm
          by_cases h3 : isRelevantTool (mkProcessed now t.1 t.2.1 t.2.2) = true
          · have hstep : crawlStepT now (seen, acc) t
                = (hitId t.2.2 :: seen, acc ++ [mkProcessed now t.1 t.2.1 t.2.2]) := by
              simp [crawlStepT, crawlStep, h1, h2, h3]
            rw [hstep]
            apply ih _ _ c q h hne hns2 ?_ hfind2 hrel
            intro r hr
            rcases List.mem_append.mp hr with hr | hr
            · exact hacc r hr
            · rw [List.mem_singleton.mp hr, pid_mkProcessed]
              exact htne
          · have hstep : crawlStepT now (seen, acc) t = (hitId t.2.2 :: seen, acc) := by
              simp [crawlStepT, crawlStep, h1, h2, h3]
            rw [hstep]
            exact ih _ _ c q h hne hns2 hacc hfind2 hrel

/-- Claim C2: within one `run` invocation no emitted record has an empty id,
no id is emitted more than once, and a relevant record whose id is new to the
crawler is emitted exactly once — as the processed form of its first
occurrence in the execution order of categories and queries, so its
search-category field names the category whose query ran first. -/
theorem run_dedup_c2 (oracle : SearchOracle) (now : String) (catsOpt : Option (List String))
    (seen0 : List String) :
    (∀ r ∈ (runCrawler oracle now catsOpt seen0).2, pid r ≠ "") ∧
    (∀ id, (runCrawler oracle now catsOpt seen0).2.countP (fun r => pid r == id) ≤ 1) ∧
    (∀ (c q : String) (h : ZenodoHit),
       hitId h ≠ "" →
       hitId h ∉ seen0 →
       (runTriples oracle (resolveCats catsOpt)).find? (fun t => tripleId t == hitId h)
         = some (c, q, h) →
       isRelevantTool (mkProcessed now c q h) = true →
       (runCrawler oracle now catsOpt seen0).2.filter (fun r => pid r == hitId h)
         = [mkProcessed now c q h] ∧
       (mkProcessed now c q h).searchCategory = some c) := by
  obtain ⟨⟨hs0, hrec, hnd⟩, hmono⟩ := runCrawler_spec oracle now catsOpt seen0
  refine ⟨fun r hr => (hrec r hr).1, fun id => countP_pid_le_one _ hnd id, ?_⟩
  intro c q h hne hns hfind hrel
  constructor
  · rw [runCrawler_foldT]
    exact foldl_crawl_first now _ seen0 [] c q h hne hns (by simp) hfind hrel
  · rfl

/-- Witness for claim C2: the raw record with id 42 is returned both by the
first query of the functional-correctness category and by a query of the
termination category, and the run emits it exactly once, attributed to
functional correctness. -/
theorem run_dedup_c2_witness :
    (runTriples oracleC2 (resolveCats none)).find? (fun t => tripleId t == hitId hitA)
      = some ("functional_correctness", "program verification", hitA) ∧
    ("termination", "termination analysis", hitA) ∈ runTriples oracleC2 (resolveCats none) ∧
    (runCrawler oracleC2 "t" none []).2.filter (fun r => pid r == hitId hitA)
      = [mkProcessed "t" "functional_correctness" "program verification" hitA] :=
  ⟨by decide, by decide,
   ((run_dedup_c2 oracleC2 "t" none []).2.2 "functional_correctness" "program verification"
      hitA (by decide) (by decide) (by decide) (by decide)).1⟩

/-- Claim C10: the seen-id set is instance state threaded through every
`run` and `run_quick` invocation and never cleared, so over any sequence of
invocations on one crawler each record id is emitted at most once in total
(an id emitted by an earlier invocation is silently dropped by all later
ones), and an id already seen before the sequence is never emitted at all. -/
theorem seen_ids_lifetime_c10 (oracle : SearchOracle) (now : String) (seen0 : List String)
    (calls : List CrawlCall) :
    (((crawlOutputs oracle now seen0 calls).flatten).map pid).Nodup ∧
    (∀ id, ((crawlOutputs oracle now seen0 calls).flatten).countP (fun r => pid r == id) ≤ 1) ∧
    (∀ r ∈ (crawlOutputs oracle now seen0 calls).flatten, pid r ∉ seen0) := by
  have h := crawlOutputs_spec oracle now calls seen0
  exact ⟨h.1, fun id => countP_pid_le_one _ h.1 id, fun r hr => (h.2 r hr).2⟩

/-- Witness for claim C10: a full run emits the record with id 42, and the
following quick run, whose query also returns that record, emits nothing —
the id stays in the instance state across invocations. -/
theorem seen_ids_lifetime_c10_witness :
    crawlOutputs oracleC10 "t" ["77"] [CrawlCall.fullRun none, CrawlCall.quickRun]
      = [[mkProcessed "t" "functional_correctness" "program verification" hitA], []] ∧
    ((crawlOutputs oracleC10 "t" ["77"]
        [CrawlCall.fullRun none, CrawlCall.quickRun]).flatten).countP
      (fun r => pid r == "42") ≤ 1 ∧
    pid (mkProcessed "t" "functional_correctness" "program verification" hitA) ∉ ["77"] :=
  ⟨by decide,
   (seen_ids_lifetime_c10 oracleC10 "t" ["77"]
      [CrawlCall.fullRun none, CrawlCall.quickRun]).2.1 "42",
   (seen_ids_lifetime_c10 oracleC10 "t" ["77"]
      [CrawlCall.fullRun none, CrawlCall.quickRun]).2.2
     (mkProcessed "t" "functional_correctness" "program verification" hitA) (by decide)⟩
